import Mathlib

/-!
Verification of the buffering and scheduling engine of the gstreamer
producer/consumer module (`src/gstreamer`).  The definitions below are a
shallow embedding of the C++ source: native `GstSample*` handles are
modelled as `Nat` identifiers, `core::draw_frame` contents as
`Option Nat` (`none` is the empty `core::draw_frame{}`), and the
diagnostic graph tags as ghost counters / lists recorded in the state.
-/

namespace Gst

set_option maxHeartbeats 1000000

instance {ε α : Type} [DecidableEq ε] [DecidableEq α] : DecidableEq (Except ε α) := fun a b =>
  match a, b with
  | .ok x, .ok y =>
    if h : x = y then .isTrue (by rw [h]) else .isFalse (by intro hc; cases hc; exact h rfl)
  | .error x, .error y =>
    if h : x = y then .isTrue (by rw [h]) else .isFalse (by intro hc; cases hc; exact h rfl)
  | .ok _, .error _ => .isFalse (by intro hc; cases hc)
  | .error _, .ok _ => .isFalse (by intro hc; cases hc)

/-! ## Consumer side: `consumer/gstreamer_consumer.cpp` -/

/-- Capture-queue capacity chosen in the `gstreamer_consumer` constructor:
`frame_buffer_.set_capacity(realtime_ ? 1 : 64)`. -/
def frame_buffer_capacity (realtime : Bool) : Nat :=
  if realtime then 1 else 64

/-- State of a `gstreamer_consumer` relevant to `send`: the stored
exception pointer, the bounded `frame_buffer_` with its capacity, the
count of `"dropped-frame"` diagnostic tags, and the `is_running_` flag. -/
structure ConsumerState where
  exception_ : Option Nat
  frame_buffer_ : List Nat
  capacity : Nat
  dropped_frames : Nat
  is_running_ : Bool
deriving DecidableEq, Repr

/-- Embedding of `gstreamer_consumer::send`: first rethrow a stored
exception if any; otherwise `frame_buffer_.try_push(frame)` (a
`tbb::concurrent_bounded_queue`, non-blocking: fails when the queue is at
capacity, leaving it unchanged), tagging `"dropped-frame"` on failure, and
return a ready future carrying `is_running_`. -/
def consumer_send (frame : Nat) (c : ConsumerState) : Except Nat (Bool × ConsumerState) :=
  match c.exception_ with
  | some e => .error e
  | none =>
    if c.frame_buffer_.length < c.capacity then
      .ok (c.is_running_, { c with frame_buffer_ := c.frame_buffer_ ++ [frame] })
    else
      .ok (c.is_running_, { c with dropped_frames := c.dropped_frames + 1 })

/-- Repeated `send` calls with no intervening pops by the encode thread. -/
def consumer_send_all (frames : List Nat) (c : ConsumerState) : ConsumerState :=
  frames.foldl
    (fun acc f =>
      match consumer_send f acc with
      | .ok (_, c2) => c2
      | .error _ => acc)
    c

/-- A freshly constructed realtime consumer: no stored exception, empty
capture queue of capacity `frame_buffer_capacity true = 1`, no dropped
frames yet. -/
def realtime_consumer_init : ConsumerState :=
  { exception_ := none
    frame_buffer_ := []
    capacity := frame_buffer_capacity true
    dropped_frames := 0
    is_running_ := true }

/-! ## Sample Source callbacks: `producer/gst_input.cpp` -/

/-- A `tbb::concurrent_bounded_queue` of native sample handles. -/
structure SampleQueue where
  items : List Nat
  capacity : Nat
deriving DecidableEq, Repr

/-- `tbb::concurrent_bounded_queue::try_push`: non-blocking; fails and
leaves the queue unchanged when it already holds `capacity` items. -/
def SampleQueue.try_push (q : SampleQueue) (s : Nat) : Bool × SampleQueue :=
  if q.items.length < q.capacity then
    (true, { q with items := q.items ++ [s] })
  else
    (false, q)

inductive GstFlowReturn
  | ok
  | error
deriving DecidableEq, Repr

/-- State touched by the appsink callbacks: the bounded `video_buffer_`
(resp. `audio_buffer_`) and a ghost list of sample handles on which
`gst_sample_unref` was called. -/
structure CallbackState where
  buffer : SampleQueue
  released : List Nat
deriving DecidableEq, Repr

/-- Embedding of `GstInput::new_video_sample` (and the identically
structured `new_audio_sample`): pull the sample (`none` means
`gst_app_sink_pull_sample` failed, returning `GST_FLOW_ERROR`), take a
reference for the queue, `try_push` it; when the queue is full, unref the
newly arrived sample and still return `GST_FLOW_OK` without blocking. -/
def new_video_sample (sample : Option Nat) (st : CallbackState) : GstFlowReturn × CallbackState :=
  match sample with
  | none => (.error, st)
  | some s =>
    let (pushed, q) := st.buffer.try_push s
    if pushed then
      (.ok, { st with buffer := q })
    else
      (.ok, { st with released := st.released ++ [s] })

/-! ## Producer playout buffer and field sequencer: `producer/gst_producer.cpp` -/

/-- `core::video_field` of a production-clock tick. -/
inductive video_field
  | a
  | b
  | progressive
deriving DecidableEq, Repr

/-- The `Frame` struct of `gst_producer.cpp`: the native video/audio
sample handles, the converted `core::draw_frame` content, the timing
fields, and the sequence number `frame_count`. -/
structure PFrame where
  video : Option Nat
  audio : Option Nat
  frame : Nat
  pts : Int
  duration : Int
  frame_count : Nat
deriving DecidableEq, Repr

/-- The `int64_t` sentinel `std::numeric_limits<int64_t>::max()` used for
an unbounded clip duration. -/
def i64max : Int := 9223372036854775807

/-- The `GstProducer::Impl` state touched by `prev_frame` / `next_frame` /
`seek`: the playout `buffer_` deque, the `buffer_eof_` flag, the per-call
playout bookkeeping (`frame_flush_`, the held `frame_` content,
`frame_time_`, `frame_duration_`), the clip window (`start_`,
`duration_`, `input_duration_`), the interlacing mode `field_count`, the
`latency_` counter, plus ghost counters for the `"underflow"` diagnostic
tag and the list of sample handles passed to `gst_sample_unref`. -/
structure PState where
  buffer_ : List PFrame
  buffer_eof_ : Bool
  frame_flush_ : Bool
  frame_ : Option Nat
  frame_time_ : Int
  frame_duration_ : Int
  start_ : Int
  duration_ : Int
  input_duration_ : Int
  field_count : Nat
  latency_ : Int
  underflows : Nat
  released : List Nat
deriving DecidableEq, Repr

/-- Result of a production-clock delivery call: the empty
`core::draw_frame{}`, a freeze `core::draw_frame::still(frame_)` of the
held content, or a newly advanced frame. -/
inductive nf_result
  | empty
  | still (f : Option Nat)
  | frame (f : Nat)
deriving DecidableEq, Repr

/-- Effective clip end computed in `next_frame` and `run`:
`(duration_ != int64 max) ? start_ + duration_ : INT64_MAX`. -/
def clip_end (start_ duration_ : Int) : Int :=
  if duration_ ≠ i64max then start_ + duration_ else i64max

/-- The starved branch of `GstProducer::Impl::next_frame`, taken when the
buffer is empty or a flush is pending with fewer than 4 buffered frames:
on end-of-clip with no pending flush, extrapolate `frame_time_` (by
`frame_duration_` while below the effective end; to `input_duration_`
when the duration is degenerate) and return a freeze of the held frame;
otherwise tag `"underflow"`, bump `latency_`, and return the empty frame. -/
def next_frame_starved (s : PState) : nf_result × PState :=
  let endv := clip_end s.start_ s.duration_
  if s.buffer_eof_ && !s.frame_flush_ then
    let ft :=
      if s.frame_time_ < endv ∧ s.frame_duration_ ≠ 0 then s.frame_time_ + s.frame_duration_
      else if s.frame_time_ < endv then s.input_duration_
      else s.frame_time_
    (.still s.frame_, { s with frame_time_ := ft })
  else
    (.empty, { s with latency_ := s.latency_ + 1, underflows := s.underflows + 1 })

/-- Field-parity check of `next_frame` for two-field formats:
`is_field_1 = (buffer_[0].frame_count % 2) == 0`, and the head is the
wrong field when `field == a && !is_field_1 || field == b && is_field_1`. -/
def wrong_field (field : video_field) (f0 : PFrame) : Bool :=
  let is_field_1 := f0.frame_count % 2 == 0
  (field == .a && !is_field_1) || (field == .b && is_field_1)

/-- Embedding of `GstProducer::Impl::next_frame`: starved branch when the
buffer is empty or a flush is pending with fewer than 4 buffered frames;
wrong-field parity on a two-field format is treated as underflow without
popping; otherwise pop the head, update the held frame and timing, unref
the head's native samples, and return the frame (resetting `latency_` to
the recovered sentinel `-1`). -/
def next_frame (field : video_field) (s : PState) : nf_result × PState :=
  match s.buffer_ with
  | [] => next_frame_starved s
  | f0 :: rest =>
    if s.frame_flush_ && decide ((f0 :: rest).length < 4) then
      next_frame_starved s
    else if s.field_count == 2 && wrong_field field f0 then
      (.empty, { s with latency_ := s.latency_ + 1, underflows := s.underflows + 1 })
    else
      (.frame f0.frame,
        { s with
          frame_ := some f0.frame
          frame_time_ := f0.pts
          frame_duration_ := f0.duration
          frame_flush_ := false
          latency_ := -1
          released := s.released ++ f0.video.toList ++ f0.audio.toList
          buffer_ := rest })

/-- Embedding of `GstProducer::Impl::prev_frame` (exposed to the clock as
`last_frame`): on any field other than `b`, if a flush is pending or no
frame is held, snapshot the buffer head (without removing it) into the
held-frame slot; always return a freeze of the held content. -/
def prev_frame (field : video_field) (s : PState) : nf_result × PState :=
  if field != .b then
    if s.frame_flush_ || s.frame_.isNone then
      match s.buffer_ with
      | [] => (.still s.frame_, s)
      | f0 :: _ =>
        let s2 := { s with
          frame_ := some f0.frame
          frame_time_ := f0.pts
          frame_duration_ := f0.duration
          frame_flush_ := false }
        (.still s2.frame_, s2)
    else
      (.still s.frame_, s)
  else
    (.still s.frame_, s)

/-- Embedding of the buffer flush performed by `GstProducer::Impl::seek`
under `buffer_mutex_`, in source order: `buffer_.clear()` first, then the
`for (auto& frame : buffer_)` loop that calls `gst_sample_unref` on each
remaining element — a loop that consequently iterates over an
already-empty deque. -/
def producer_seek_flush (s : PState) : PState :=
  let cleared : List PFrame := []
  let unrefs := cleared.foldl (fun acc f => acc ++ f.video.toList ++ f.audio.toList) []
  { s with buffer_ := cleared, released := s.released ++ unrefs }

/-! ## Clip Scheduler end-of-clip check: `GstProducer::Impl::run` -/

/-- Inputs read by one end-of-clip check of the scheduler loop. -/
structure RunCheckIn where
  loop_ : Bool
  frame_count_ : Nat
  input_eof : Bool
  pts : Int
  frame_duration : Int
  start_ : Int
  duration_ : Int
deriving DecidableEq, Repr

/-- Decision taken by the end-of-clip check in `run`. -/
inductive RunDecision
  | seek_to_start
  | idle
  | proceed
deriving DecidableEq, Repr

/-- Embedding of the end-of-clip check in `GstProducer::Impl::run`:
`buffer_eof_ = input_.eof() || frame.pts + frame.duration >= end`; when
set, loop back (seek the input to `start_`) only if `loop_ &&
frame_count_ > 2`, else idle for ~10ms; when clear, proceed to pop a
sample.  The second component is the value stored into `buffer_eof_`. -/
def run_eof_check (x : RunCheckIn) : RunDecision × Bool :=
  let endv := clip_end x.start_ x.duration_
  let time := x.pts + x.frame_duration
  let buffer_eof := x.input_eof || decide (time ≥ endv)
  if buffer_eof then
    if x.loop_ && decide (x.frame_count_ > 2) then (.seek_to_start, buffer_eof)
    else (.idle, buffer_eof)
  else
    (.proceed, buffer_eof)

/-- The state reset performed by `run` when it loops back to `start_`
(`frame = Frame{}; input_.seek(start); frame_flush_ = true;`): the
member `frame_count_` is not touched, so the loop guard counts frames
since construction, not since the last loop point. -/
def run_loop_restart (frame_count_ : Nat) : Nat :=
  frame_count_

/-! ## Concurrent interaction: scheduler thread, control seek, clock pop

The playout buffer is only ever touched under `buffer_mutex_`, and the
seek request `seek_` is an atomic, so the concurrent execution of
`GstProducer::Impl::run`, `GstProducer::Impl::seek` and the pop branch of
`next_frame` is modelled as an interleaving of atomic events on a shared
state.  Pending frames are abstracted to `(epoch, id)` pairs, where
`epoch` counts how many control seeks the scheduler has consumed at the
top of its loop (each consumption performs `input_.seek`, resets the
in-flight `frame` and sets `frame_flush_`); a frame is pre-seek for a
given seek exactly when its epoch is not greater than the epoch recorded
when that seek was requested. -/

/-- Position of the scheduler thread inside one iteration of `run`:
either at the top of the loop, or holding a converted frame (tagged with
the epoch it was built in) just before the buffer-push critical
section. -/
inductive SchedPos
  | at_top
  | holding (epoch : Nat) (id : Nat)
deriving DecidableEq, Repr

/-- Shared state of the scheduler/control/clock interleaving:
the playout `buf` with its capacity, the scheduler's seek epoch, the
`seek_ != -1` flag `pending`, ghost flag `flushed` (the current seek's
`buffer_.clear()` has run), the epoch recorded when the last seek was
requested, whether any seek was ever requested, and the scheduler
position. -/
structure SchedState where
  buf : List (Nat × Nat)
  cap : Nat
  epoch : Nat
  pending : Bool
  flushed : Bool
  seek_epoch : Nat
  ever_seek : Bool
  sched : SchedPos
deriving DecidableEq, Repr

/-- Event labels of the interleaving. -/
inductive SchedEvent
  | consume
  | build (id : Nat)
  | push
  | pop
  | seek_set
  | seek_clear
deriving DecidableEq, Repr

/-- Atomic events of the concurrent system, from the source:
`consume` is the scheduler's `seek_.exchange(-1)` at the top of `run`
observing a pending seek (it forwards it to `input_.seek`, resets the
in-flight frame and bumps the epoch); `build` is the conversion of a
popped sample into a frame tagged with the current epoch; `push` is the
critical section `wait(size < capacity); if (seek_ == -1) push_back`;
`pop` is the delivering branch of `next_frame` removing the head;
`seek_set` is the control call's `seek_ = time`; `seek_clear` is the same
control call's `buffer_.clear()` under the mutex. -/
inductive SchedStep : SchedEvent → SchedState → SchedState → Prop
  | consume {s : SchedState} :
      s.sched = .at_top → s.pending = true →
      SchedStep .consume s { s with pending := false, epoch := s.epoch + 1 }
  | build {s : SchedState} (id : Nat) :
      s.sched = .at_top →
      SchedStep (.build id) s { s with sched := .holding s.epoch id }
  | push {s : SchedState} {e id : Nat} :
      s.sched = .holding e id → s.buf.length < s.cap →
      SchedStep .push s
        { s with
          sched := .at_top
          buf := if s.pending then s.buf else s.buf ++ [(e, id)] }
  | pop {s : SchedState} {f : Nat × Nat} {rest : List (Nat × Nat)} :
      s.buf = f :: rest →
      SchedStep .pop s { s with buf := rest }
  | seek_set {s : SchedState} :
      SchedStep .seek_set s
        { s with
          pending := true
          flushed := false
          seek_epoch := s.epoch
          ever_seek := true }
  | seek_clear {s : SchedState} :
      s.ever_seek = true → s.flushed = false →
      SchedStep .seek_clear s { s with buf := [], flushed := true }

/-- Initial state: empty buffer, no seek ever requested, scheduler at the
top of its loop. -/
def sched_init (cap : Nat) : SchedState :=
  { buf := []
    cap := cap
    epoch := 0
    pending := false
    flushed := false
    seek_epoch := 0
    ever_seek := false
    sched := .at_top }

/-- States reachable from the initial state by interleaved events. -/
inductive SchedReachable (cap : Nat) : SchedState → Prop
  | init : SchedReachable cap (sched_init cap)
  | step {s s' : SchedState} {e : SchedEvent} :
      SchedReachable cap s → SchedStep e s s' → SchedReachable cap s'

/-- Inductive invariant of the interleaving: buffer occupancy is bounded
by the capacity; while a seek is pending the epoch is frozen at the value
recorded at the request; after the pending seek is consumed the epoch is
strictly larger; a flush implies some seek was requested; a held frame
built after the last seek's consumption has a strictly larger epoch; and
once the current seek's flush has run, every buffered frame is
post-seek. -/
def SchedInv (s : SchedState) : Prop :=
  s.buf.length ≤ s.cap
  ∧ (s.pending = true → s.epoch = s.seek_epoch)
  ∧ (s.pending = false → s.ever_seek = true → s.seek_epoch < s.epoch)
  ∧ (s.flushed = true → s.ever_seek = true)
  ∧ (∀ e id, s.sched = .holding e id →
      s.pending = false → s.ever_seek = true → s.seek_epoch < e)
  ∧ (s.flushed = true → ∀ p ∈ s.buf, s.seek_epoch < p.1)

/-- A reachable state with a flushed seek and one post-seek frame in the
playout buffer, built by: seek request, its flush, the scheduler
consuming the seek, building a frame in the new epoch, and pushing it. -/
def sched_demo : SchedState :=
  { buf := [(1, 7)]
    cap := 2
    epoch := 1
    pending := false
    flushed := true
    seek_epoch := 0
    ever_seek := true
    sched := .at_top }

/-! ## Concrete playout states used as test inputs -/

/-- Playout state at the natural end of a finite clip: end-of-clip
flagged, buffer empty, no flush pending, and `frame_time_` already at the
effective end `start_ + duration_ = 100`. -/
def end_hold_state : PState :=
  { buffer_ := []
    buffer_eof_ := true
    frame_flush_ := false
    frame_ := some 5
    frame_time_ := 100
    frame_duration_ := 40
    start_ := 0
    duration_ := 100
    input_duration_ := 90
    field_count := 1
    latency_ := -1
    underflows := 0
    released := [] }

/-- Same end-hold situation but with `frame_time_` still short of the
effective end. -/
def end_hold_pre : PState :=
  { end_hold_state with frame_time_ := 60 }

/-- A pending frame whose sequence number has field-B parity
(`frame_count % 2 == 1`). -/
def wrong_field_head : PFrame :=
  { video := some 3
    audio := none
    frame := 9
    pts := 40
    duration := 20
    frame_count := 1 }

/-- An interlaced (two-field) playout state whose buffer head has field-B
parity. -/
def interlaced_state : PState :=
  { buffer_ := [wrong_field_head]
    buffer_eof_ := false
    frame_flush_ := false
    frame_ := some 4
    frame_time_ := 20
    frame_duration_ := 20
    start_ := 0
    duration_ := i64max
    input_duration_ := 0
    field_count := 2
    latency_ := 0
    underflows := 0
    released := [] }

/-- A pending frame embedding native video sample 7 and audio sample 8. -/
def flush_leak_frame : PFrame :=
  { video := some 7
    audio := some 8
    frame := 2
    pts := 0
    duration := 40
    frame_count := 0 }

/-- A playout state whose buffer holds one pending frame with embedded
native samples, about to be flushed by a producer seek. -/
def flush_leak_state : PState :=
  { end_hold_state with
      buffer_ := [flush_leak_frame]
      buffer_eof_ := false
      released := [] }

/-- End-of-clip check inputs: looping enabled, end-of-stream reached,
exactly 2 frames produced so far. -/
def loop_check_demo : RunCheckIn :=
  { loop_ := true
    frame_count_ := 2
    input_eof := true
    pts := 0
    frame_duration := 0
    start_ := 0
    duration_ := i64max }

/-! ## Claims about the consumer and the Sample Source callbacks -/

/-- C1 counterexample: a capacity-1 realtime capture queue receiving the
10 frames `1..10` with no pops retains frame `1` (the first pushed), not
frame `10`: `try_push` drops the incoming newest frame on overflow, so the
frame surviving in the queue is the oldest one. -/
theorem c1_newest_retained_false :
    ¬ (consumer_send_all [1, 2, 3, 4, 5, 6, 7, 8, 9, 10] realtime_consumer_init).frame_buffer_
        = [10] := by
  decide

/-- C1 (amended): a capacity-1 realtime capture queue receiving 10 sends
with no intervening pops retains exactly one frame — the 1st (oldest)
pushed, since overflow drops the incoming newest frame — and raises
exactly 9 "dropped-frame" diagnostic tags. -/
theorem c1_capacity_one_drop_behavior :
    (consumer_send_all [1, 2, 3, 4, 5, 6, 7, 8, 9, 10] realtime_consumer_init).frame_buffer_
        = [1]
    ∧ (consumer_send_all [1, 2, 3, 4, 5, 6, 7, 8, 9, 10] realtime_consumer_init).dropped_frames
        = 9 := by
  decide

/-- C10: `send` rethrows a stored exception to the caller before touching
the queue; with no stored exception it never throws and returns an
already-ready future carrying the `is_running_` flag. -/
theorem c10_send_exception_contract (frame : Nat) (c : ConsumerState) :
    (∀ e, c.exception_ = some e → consumer_send frame c = .error e)
    ∧ (c.exception_ = none →
        (consumer_send frame c = .ok (c.is_running_,
            { c with frame_buffer_ := c.frame_buffer_ ++ [frame] })
         ∨ consumer_send frame c = .ok (c.is_running_,
            { c with dropped_frames := c.dropped_frames + 1 }))) := by
  constructor
  · intro e he
    simp [consumer_send, he]
  · intro he
    by_cases h : c.frame_buffer_.length < c.capacity
    · exact Or.inl (by simp [consumer_send, he, h])
    · exact Or.inr (by simp [consumer_send, he, h])

/-- A consumer state whose encode thread has stored an exception. -/
def failed_consumer : ConsumerState :=
  { exception_ := some 3
    frame_buffer_ := []
    capacity := 1
    dropped_frames := 0
    is_running_ := true }

/-- Witness for C10 at a concrete consumer state with a stored exception
and at one without. -/
theorem c10_send_exception_contract_witness :
    consumer_send 5 failed_consumer = .error 3
    ∧ consumer_send 5 realtime_consumer_init
        = .ok (true, { realtime_consumer_init with frame_buffer_ := [5] }) := by
  refine ⟨(c10_send_exception_contract 5 _).1 3 rfl, ?_⟩
  have h := (c10_send_exception_contract 5 realtime_consumer_init).2 rfl
  rcases h with h | h
  · exact h
  · exact absurd h (by decide)

/-- C9: when the video sample queue is already full at submission time,
`new_video_sample` drops the newly arrived (newest) sample, releases its
reference, returns `GST_FLOW_OK` without blocking, and leaves the
queue's existing contents unchanged. -/
theorem c9_queue_full_drops_newest (s : Nat) (st : CallbackState)
    (hfull : st.buffer.items.length = st.buffer.capacity) :
    new_video_sample (some s) st = (.ok, { st with released := st.released ++ [s] }) := by
  have h : ¬ st.buffer.items.length < st.buffer.capacity := by omega
  simp [new_video_sample, SampleQueue.try_push, h]

/-- Witness for C9: a queue of capacity 2 holding samples 10 and 11
rejects sample 12, releasing it and keeping the queue unchanged. -/
theorem c9_queue_full_drops_newest_witness :
    new_video_sample (some 12)
        { buffer := { items := [10, 11], capacity := 2 }, released := [] }
      = (.ok, { buffer := { items := [10, 11], capacity := 2 }, released := [12] }) :=
  c9_queue_full_drops_newest 12
    { buffer := { items := [10, 11], capacity := 2 }, released := [] } rfl

/-- Each atomic event of the scheduler/control/clock interleaving
preserves the inductive invariant. -/
theorem sched_step_inv {e : SchedEvent} {s s' : SchedState}
    (hinv : SchedInv s) (hstep : SchedStep e s s') : SchedInv s' := by
  obtain ⟨h1, h2, h3, h4, h5, h6⟩ := hinv
  cases hstep with
  | consume hpos hpend =>
    refine ⟨h1, by simp, ?_, h4, ?_, h6⟩
    · intro _ hever
      have he := h2 hpend
      show s.seek_epoch < s.epoch + 1
      omega
    · intro e id hh
      rw [hpos] at hh
      exact SchedPos.noConfusion hh
  | build id hpos =>
    refine ⟨h1, h2, h3, h4, ?_, h6⟩
    intro e id' hh
    injection hh with he _
    rw [← he]
    exact h3
  | push hpos hlen =>
    refine ⟨?_, h2, h3, h4, ?_, ?_⟩
    · by_cases hp : s.pending = true
      · simpa [hp] using h1
      · simp only [Bool.not_eq_true] at hp
        simp [hp, List.length_append]
        omega
    · intro e id hh
      exact SchedPos.noConfusion hh
    · intro hfl p hp
      by_cases hpd : s.pending = true
      · rw [if_pos hpd] at hp
        exact h6 hfl p hp
      · simp only [Bool.not_eq_true] at hpd
        rw [if_neg (by simp [hpd])] at hp
        rcases List.mem_append.mp hp with hin | hin
        · exact h6 hfl p hin
        · rcases List.mem_singleton.mp hin with rfl
          exact h5 _ _ hpos hpd (h4 hfl)
  | pop hb =>
    refine ⟨?_, h2, h3, h4, h5, ?_⟩
    · rw [hb] at h1
      simp at h1 ⊢
      omega
    · intro hfl p hp
      exact h6 hfl p (by rw [hb]; exact List.mem_cons_of_mem _ hp)
  | seek_set =>
    exact ⟨h1, fun _ => rfl, by simp, by simp, fun e id hh => by simp, by simp⟩
  | seek_clear hever hfl =>
    refine ⟨by simp, h2, h3, fun _ => hever, h5, ?_⟩
    intro _ p hp
    exact absurd hp (List.not_mem_nil p)

/-- Every reachable state of the interleaving satisfies the invariant. -/
theorem sched_reachable_inv {cap : Nat} {s : SchedState}
    (h : SchedReachable cap s) : SchedInv s := by
  induction h with
  | init =>
    refine ⟨by simp [sched_init], by simp [sched_init], by simp [sched_init],
      by simp [sched_init], ?_, by simp [sched_init]⟩
    intro e id hh
    simp [sched_init] at hh
  | step _ hstep ih => exact sched_step_inv ih hstep

/-- C3: for every interleaving of decoder arrivals (scheduler pushes) and
clock ticks (pops), the playout buffer occupancy never exceeds the
configured capacity, and a scheduler push — enabled only once occupancy
is below capacity, modelling the `buffer_cond_` wait — only ever appends
its frame (or skips it when a seek is pending), never removing a buffered
frame to make room. -/
theorem c3_bounded_buffering (cap : Nat) (s : SchedState) (h : SchedReachable cap s) :
    s.buf.length ≤ s.cap
    ∧ ∀ s' : SchedState, SchedStep .push s s' →
        ((∃ p, s'.buf = s.buf ++ [p]) ∨ s'.buf = s.buf) ∧ s'.buf.length ≤ s.cap := by
  refine ⟨(sched_reachable_inv h).1, ?_⟩
  intro s' hstep
  cases hstep with
  | @push _ e id hpos hlen =>
    constructor
    · by_cases hp : s.pending = true
      · exact Or.inr (by simp [hp])
      · simp only [Bool.not_eq_true] at hp
        exact Or.inl ⟨(e, id), by simp [hp]⟩
    · by_cases hp : s.pending = true
      · simpa [hp] using (sched_reachable_inv h).1
      · simp only [Bool.not_eq_true] at hp
        simp [hp, List.length_append]
        omega

/-- Witness for C3 at the initial state with capacity 3. -/
theorem c3_bounded_buffering_witness :
    (sched_init 3).buf.length ≤ (sched_init 3).cap
    ∧ ∀ s' : SchedState, SchedStep .push (sched_init 3) s' →
        ((∃ p, s'.buf = (sched_init 3).buf ++ [p]) ∨ s'.buf = (sched_init 3).buf)
        ∧ s'.buf.length ≤ (sched_init 3).cap :=
  c3_bounded_buffering 3 (sched_init 3) SchedReachable.init

/-- C4: in any reachable state in which the current seek's synchronous
buffer flush has completed, every frame still in (or subsequently pushed
into) the playout buffer — hence every frame a clock-tick pop can return
— carries an epoch strictly greater than the epoch recorded when the
seek was requested: no pending frame created before the seek is ever
returned by `next_frame` after the seek's flush. -/
theorem c4_no_stale_after_seek (cap : Nat) (s : SchedState)
    (h : SchedReachable cap s) (hf : s.flushed = true) :
    (∀ p ∈ s.buf, s.seek_epoch < p.1)
    ∧ ∀ f rest s', s.buf = f :: rest → SchedStep .pop s s' → s.seek_epoch < f.1 := by
  have hinv := sched_reachable_inv h
  refine ⟨hinv.2.2.2.2.2 hf, ?_⟩
  intro f rest s' hb _
  exact hinv.2.2.2.2.2 hf f (by rw [hb]; exact List.mem_cons_self f rest)

/-- The demo state is reachable: seek request, its flush, the scheduler
consuming the seek, building a frame in the new epoch, pushing it. -/
theorem sched_demo_reachable : SchedReachable 2 sched_demo :=
  SchedReachable.step
    (SchedReachable.step
      (SchedReachable.step
        (SchedReachable.step
          (SchedReachable.step SchedReachable.init SchedStep.seek_set)
          (SchedStep.seek_clear rfl rfl))
        (SchedStep.consume rfl rfl))
      (SchedStep.build 7 rfl))
    (SchedStep.push rfl (by decide))

/-- Witness for C4 at the concrete reachable post-flush state holding one
post-seek frame. -/
theorem c4_no_stale_after_seek_witness :
    sched_demo.seek_epoch < (1, 7).1 ∧ (1, 7) ∈ sched_demo.buf :=
  ⟨(c4_no_stale_after_seek 2 sched_demo sched_demo_reachable rfl).1 (1, 7) (by decide),
    by decide⟩

/-- C2 counterexample: at `end_hold_state` — end-of-clip flagged, looping
moot, no flush pending, buffer empty, but `frame_time_` already at the
effective end of the finite clip — `next_frame` still returns a freeze of
the held frame, yet the playout timestamp does not advance at all, while
the claim demands an advance by exactly one frame duration (40) on every
such call. -/
theorem c2_end_hold_advance_false :
    (next_frame .progressive end_hold_state).1 = nf_result.still (some 5)
    ∧ (next_frame .progressive end_hold_state).2.frame_time_ = 100
    ∧ ¬ ((next_frame .progressive end_hold_state).2.frame_time_
          = end_hold_state.frame_time_ + end_hold_state.frame_duration_) := by
  decide

/-- C2 (amended): once end-of-clip is flagged and no flush is pending,
every `next_frame` call with the buffer empty returns a still of the same
held frame (held content and underflow count unchanged — never
underflow); the playout timestamp advances by exactly one frame duration
while it is below the effective end and the held frame duration is
nonzero, jumps to the known input duration when below the end with a
degenerate (zero) frame duration, and stays unchanged once at or past the
effective end. -/
theorem c2_end_hold_freeze (field : video_field) (s : PState)
    (hb : s.buffer_ = []) (he : s.buffer_eof_ = true) (hf : s.frame_flush_ = false) :
    (next_frame field s).1 = nf_result.still s.frame_
    ∧ (next_frame field s).2.frame_ = s.frame_
    ∧ (next_frame field s).2.underflows = s.underflows
    ∧ (s.frame_time_ < clip_end s.start_ s.duration_ → s.frame_duration_ ≠ 0 →
        (next_frame field s).2.frame_time_ = s.frame_time_ + s.frame_duration_)
    ∧ (s.frame_time_ < clip_end s.start_ s.duration_ → s.frame_duration_ = 0 →
        (next_frame field s).2.frame_time_ = s.input_duration_)
    ∧ (clip_end s.start_ s.duration_ ≤ s.frame_time_ →
        (next_frame field s).2.frame_time_ = s.frame_time_) := by
  have hred : next_frame field s
      = (nf_result.still s.frame_,
         { s with frame_time_ :=
            if s.frame_time_ < clip_end s.start_ s.duration_ ∧ s.frame_duration_ ≠ 0 then
              s.frame_time_ + s.frame_duration_
            else if s.frame_time_ < clip_end s.start_ s.duration_ then s.input_duration_
            else s.frame_time_ }) := by
    simp [next_frame, hb, next_frame_starved, he, hf]
  rw [hred]
  refine ⟨rfl, rfl, rfl, ?_, ?_, ?_⟩
  · intro h1 h2
    simp [if_pos (And.intro h1 h2)]
  · intro h1 h2
    rw [show ({ s with frame_time_ :=
        if s.frame_time_ < clip_end s.start_ s.duration_ ∧ s.frame_duration_ ≠ 0 then
          s.frame_time_ + s.frame_duration_
        else if s.frame_time_ < clip_end s.start_ s.duration_ then s.input_duration_
        else s.frame_time_ } : PState).frame_time_
      = if s.frame_time_ < clip_end s.start_ s.duration_ ∧ s.frame_duration_ ≠ 0 then
          s.frame_time_ + s.frame_duration_
        else if s.frame_time_ < clip_end s.start_ s.duration_ then s.input_duration_
        else s.frame_time_ from rfl]
    rw [if_neg (fun hc => hc.2 h2), if_pos h1]
  · intro h1
    have hlt : ¬ s.frame_time_ < clip_end s.start_ s.duration_ := not_lt.mpr h1
    simp [if_neg (fun hc : _ ∧ _ => hlt hc.1), if_neg hlt]

/-- Witness for C2 (amended) at `end_hold_pre`: the timestamp advances
from 60 to 100 by the held frame duration 40 while returning a freeze of
the held frame. -/
theorem c2_end_hold_freeze_witness :
    (next_frame .progressive end_hold_pre).1 = nf_result.still (some 5)
    ∧ (next_frame .progressive end_hold_pre).2.frame_time_ = 100 := by
  have h := c2_end_hold_freeze .progressive end_hold_pre rfl rfl rfl
  refine ⟨h.1, ?_⟩
  have h4 := h.2.2.2.1 (by decide) (by decide)
  rw [h4]
  decide

/-- C5 (code bug): the playout-buffer flush in `GstProducer::Impl::seek`
runs `buffer_.clear()` before the loop meant to `gst_sample_unref` the
flushed frames' native samples, so that loop iterates an already-empty
deque: at a buffer holding one pending frame embedding video sample 7 and
audio sample 8, the flush removes the frame but releases nothing, leaking
both samples. -/
theorem c5_seek_flush_leaks_samples :
    (producer_seek_flush flush_leak_state).buffer_ = []
    ∧ (producer_seek_flush flush_leak_state).released = []
    ∧ flush_leak_state.buffer_.foldl
        (fun acc f => acc ++ f.video.toList ++ f.audio.toList) [] = [7, 8] := by
  decide

/-- C6 counterexample: with looping enabled, end-of-stream observed and
exactly 2 frames produced — satisfying the claim's "at least 2 frames"
loop condition — the scheduler idles instead of seeking back to start:
the source guard is `frame_count_ > 2`, i.e. at least 3. -/
theorem c6_loop_guard_false :
    loop_check_demo.loop_ = true
    ∧ 2 ≤ loop_check_demo.frame_count_
    ∧ (run_eof_check loop_check_demo).2 = true
    ∧ (run_eof_check loop_check_demo).1 = RunDecision.idle := by
  decide

/-- C6 (amended): when the scheduler observes Sample-Source end-of-stream
or current time at/past the effective end, it seeks back to start exactly
when looping is enabled and strictly more than 2 frames have been
produced since construction (the frame counter is never reset at a loop
point, as `run_loop_restart` records), and idles otherwise. -/
theorem c6_end_of_clip_loop_guard (x : RunCheckIn)
    (hbeof : x.input_eof = true ∨ clip_end x.start_ x.duration_ ≤ x.pts + x.frame_duration) :
    ((run_eof_check x).1 = RunDecision.seek_to_start ↔ x.loop_ = true ∧ 2 < x.frame_count_)
    ∧ ((run_eof_check x).1 = RunDecision.idle ↔ ¬ (x.loop_ = true ∧ 2 < x.frame_count_))
    ∧ run_loop_restart x.frame_count_ = x.frame_count_ := by
  have hb : (x.input_eof || decide (x.pts + x.frame_duration ≥ clip_end x.start_ x.duration_))
      = true := by
    rcases hbeof with h | h
    · simp [h]
    · simp [ge_iff_le, h]
  by_cases hg : x.loop_ = true ∧ 2 < x.frame_count_
  · refine ⟨?_, ?_, rfl⟩ <;> simp [run_eof_check, hb, hg.1, hg.2, hg]
  · have hg2 : (x.loop_ && decide (x.frame_count_ > 2)) = false := by
      by_cases hl : x.loop_ = true
      · have : ¬ 2 < x.frame_count_ := fun hc => hg ⟨hl, hc⟩
        simp [hl, this]
      · simp [Bool.not_eq_true] at hl
        simp [hl]
    refine ⟨?_, ?_, rfl⟩ <;> simp [run_eof_check, hb, hg2, hg]

/-- Witness for C6 (amended) at a state with looping enabled and 5 frames
produced: the scheduler loops back to start. -/
theorem c6_end_of_clip_loop_guard_witness :
    (run_eof_check { loop_check_demo with frame_count_ := 5 }).1 = RunDecision.seek_to_start := by
  have h := c6_end_of_clip_loop_guard { loop_check_demo with frame_count_ := 5 } (Or.inl rfl)
  exact h.1.mpr ⟨rfl, by decide⟩

/-- Reduction of `next_frame` on an empty playout buffer. -/
theorem next_frame_nil (field : video_field) (s : PState) (hb : s.buffer_ = []) :
    next_frame field s = next_frame_starved s := by
  rw [next_frame, hb]

/-- Reduction of `next_frame` on a non-empty playout buffer. -/
theorem next_frame_cons (field : video_field) (s : PState) (f0 : PFrame) (rest : List PFrame)
    (hb : s.buffer_ = f0 :: rest) :
    next_frame field s
      = if (s.frame_flush_ && decide ((f0 :: rest).length < 4)) = true then
          next_frame_starved s
        else if (s.field_count == 2 && wrong_field field f0) = true then
          (nf_result.empty, { s with latency_ := s.latency_ + 1, underflows := s.underflows + 1 })
        else
          (nf_result.frame f0.frame,
            { s with
              frame_ := some f0.frame
              frame_time_ := f0.pts
              frame_duration_ := f0.duration
              frame_flush_ := false
              latency_ := -1
              released := s.released ++ f0.video.toList ++ f0.audio.toList
              buffer_ := rest }) := by
  rw [next_frame, hb]

/-- C7: in interlaced (two-field) mode, when the buffer head's sequence
parity does not match the requested field (and the starved branch is not
taken), `next_frame` tags the underflow diagnostic, increments the
latency counter and returns the empty frame without popping; and whenever
`next_frame` does deliver a buffered frame, that frame is the head and
its parity matches the requested field. -/
theorem c7_interlaced_parity (field : video_field) (s : PState) (hfc : s.field_count = 2) :
    (∀ f0 rest, s.buffer_ = f0 :: rest →
      ¬ (s.frame_flush_ = true ∧ s.buffer_.length < 4) →
      wrong_field field f0 = true →
      next_frame field s
        = (nf_result.empty,
           { s with latency_ := s.latency_ + 1, underflows := s.underflows + 1 }))
    ∧ ∀ g s2, next_frame field s = (nf_result.frame g, s2) →
        ∃ f0 rest, s.buffer_ = f0 :: rest ∧ g = f0.frame ∧ wrong_field field f0 = false := by
  constructor
  · intro f0 rest hb hnfl hw
    rw [next_frame_cons field s f0 rest hb]
    have hflush : ¬ ((s.frame_flush_ && decide ((f0 :: rest).length < 4)) = true) := by
      intro hc
      simp only [Bool.and_eq_true, decide_eq_true_eq] at hc
      exact hnfl ⟨hc.1, by rw [hb]; exact hc.2⟩
    have hpar : (s.field_count == 2 && wrong_field field f0) = true := by
      rw [hfc, hw]
      rfl
    rw [if_neg hflush, if_pos hpar]
  · intro g s2 hg
    cases hb : s.buffer_ with
    | nil =>
      rw [next_frame_nil field s hb, next_frame_starved] at hg
      split at hg <;> simp at hg
    | cons f0 rest =>
      rw [next_frame_cons field s f0 rest hb] at hg
      by_cases h1 : (s.frame_flush_ && decide ((f0 :: rest).length < 4)) = true
      · rw [if_pos h1, next_frame_starved] at hg
        split at hg <;> simp at hg
      · rw [if_neg h1] at hg
        by_cases h2 : (s.field_count == 2 && wrong_field field f0) = true
        · rw [if_pos h2] at hg
          simp at hg
        · rw [if_neg h2] at hg
          refine ⟨f0, rest, rfl, ?_, ?_⟩
          · have h3 := congrArg Prod.fst hg
            simp at h3
            exact h3.symm
          · rw [hfc] at h2
            simpa using h2

/-- Witness for C7: an interlaced state whose buffer head has field-B
parity rejects a field-A request with an underflow-style empty result,
leaving the buffer untouched. -/
theorem c7_interlaced_parity_witness :
    next_frame .a interlaced_state
      = (nf_result.empty,
         { interlaced_state with
             latency_ := interlaced_state.latency_ + 1
             underflows := interlaced_state.underflows + 1 }) :=
  (c7_interlaced_parity .a interlaced_state rfl).1 wrong_field_head []
    rfl (by decide) (by decide)

/-- C8: `prev_frame` (`last_frame`) on field B never changes the state
and returns a freeze of the held frame; on any field the returned frame
is a freeze of the held frame of the post-call state, so two consecutive
`last_frame(A)`/`last_frame(B)` calls return the same held frame; the
buffer is never popped; and when no flush is pending and a frame is
already held, no field snapshots the buffer head — the call is a pure
freeze. -/
theorem c8_last_frame_pairing (field : video_field) (s : PState) :
    prev_frame .b s = (nf_result.still s.frame_, s)
    ∧ (prev_frame field s).1 = nf_result.still (prev_frame field s).2.frame_
    ∧ prev_frame .b (prev_frame field s).2
        = (nf_result.still (prev_frame field s).2.frame_, (prev_frame field s).2)
    ∧ (prev_frame field s).2.buffer_ = s.buffer_
    ∧ (s.frame_flush_ = false → s.frame_.isSome = true →
        prev_frame field s = (nf_result.still s.frame_, s)) := by
  have hb : ∀ t : PState, prev_frame .b t = (nf_result.still t.frame_, t) := by
    intro t
    rfl
  have hstill : ∀ (f : video_field) (t : PState),
      (prev_frame f t).1 = nf_result.still (prev_frame f t).2.frame_ := by
    intro f t
    rw [prev_frame]
    by_cases hf : (f != video_field.b) = true
    · rw [if_pos hf]
      by_cases hfl : (t.frame_flush_ || t.frame_.isNone) = true
      · rw [if_pos hfl]
        cases t.buffer_ with
        | nil => rfl
        | cons f0 rest => rfl
      · rw [if_neg hfl]
    · rw [if_neg hf]
  have hbuf : ∀ (f : video_field) (t : PState), (prev_frame f t).2.buffer_ = t.buffer_ := by
    intro f t
    rw [prev_frame]
    by_cases hf : (f != video_field.b) = true
    · rw [if_pos hf]
      by_cases hfl : (t.frame_flush_ || t.frame_.isNone) = true
      · rw [if_pos hfl]
        cases ht : t.buffer_ with
        | nil => exact ht
        | cons f0 rest => rfl
      · rw [if_neg hfl]
    · rw [if_neg hf]
  refine ⟨hb s, hstill field s, hb _, hbuf field s, ?_⟩
  intro hfl hsome
  have hcond : (s.frame_flush_ || s.frame_.isNone) = false := by
    cases ho : s.frame_ with
    | none => rw [ho] at hsome; simp at hsome
    | some v => simp [hfl, ho]
  rw [prev_frame]
  by_cases hf : (field != video_field.b) = true
  · rw [if_pos hf, if_neg (by rw [hcond]; simp)]
  · rw [if_neg hf]

/-- Witness for C8 at the interlaced state (no flush pending, a frame
held): `prev_frame` on field A is a pure freeze of the held frame. -/
theorem c8_last_frame_pairing_witness :
    prev_frame .a interlaced_state = (nf_result.still (some 4), interlaced_state) :=
  (c8_last_frame_pairing .a interlaced_state).2.2.2.2 rfl rfl

end Gst
